import Mathlib

/-!
Shallow embedding of the medical_form backend core: the progress-report
composer (`medicalHistoryDAO.getPatientProgressReport` and its controller),
the image utilities (`fetchImageAsBase64`, `isValidImageUrl`), the bearer-token
verifier (`processToken`) with its `optional` gate mode, and the pain-scale
validation of the medical-history controller.  Machine integers are modelled
as `Int`/`Nat`, bytes as `Nat` below 256, JSON numbers as `ℚ`, nullable
values as `Option`, and the outcome of each external call (database, axios,
jwt) as an explicit argument.
-/

/-! ### Base64 (models Node's `Buffer.toString('base64')` on a byte array) -/

/-- The standard base64 alphabet, index `n` holding the digit for value `n`. -/
def base64Chars : List Char :=
  ['A', 'B', 'C', 'D', 'E', 'F', 'G', 'H', 'I', 'J', 'K', 'L', 'M',
   'N', 'O', 'P', 'Q', 'R', 'S', 'T', 'U', 'V', 'W', 'X', 'Y', 'Z',
   'a', 'b', 'c', 'd', 'e', 'f', 'g', 'h', 'i', 'j', 'k', 'l', 'm',
   'n', 'o', 'p', 'q', 'r', 's', 't', 'u', 'v', 'w', 'x', 'y', 'z',
   '0', '1', '2', '3', '4', '5', '6', '7', '8', '9', '+', '/']

/-- Digit character for a 6-bit value. -/
def encodeChar (n : Nat) : Char := base64Chars.getD n 'A'

/-- Value of a base64 digit character, `none` for a non-digit. -/
def decodeChar (c : Char) : Option Nat := base64Chars.findIdx? (fun d => d == c)

/-- Standard base64 encoding of a byte list, with `=` padding. -/
def base64Encode : List Nat → String
  | [] => ""
  | [b1] => String.mk [encodeChar (b1 / 4), encodeChar (b1 % 4 * 16), '=', '=']
  | [b1, b2] => String.mk [encodeChar (b1 / 4), encodeChar (b1 % 4 * 16 + b2 / 16),
      encodeChar (b2 % 16 * 4), '=']
  | b1 :: b2 :: b3 :: rest =>
      String.mk [encodeChar (b1 / 4), encodeChar (b1 % 4 * 16 + b2 / 16),
        encodeChar (b2 % 16 * 4 + b3 / 64), encodeChar (b3 % 64)] ++ base64Encode rest

/-- Base64 decoding over a character list; `none` on malformed input. -/
def base64DecodeChars : List Char → Option (List Nat)
  | [] => some []
  | c1 :: c2 :: c3 :: c4 :: rest =>
    match decodeChar c1, decodeChar c2 with
    | some n1, some n2 =>
      if c3 = '=' then
        if c4 = '=' ∧ rest = [] ∧ n2 % 16 = 0 then some [n1 * 4 + n2 / 16] else none
      else
        match decodeChar c3 with
        | some n3 =>
          if c4 = '=' then
            if rest = [] ∧ n3 % 4 = 0 then
              some [n1 * 4 + n2 / 16, n2 % 16 * 16 + n3 / 4]
            else none
          else
            match decodeChar c4 with
            | some n4 =>
              match base64DecodeChars rest with
              | some tail =>
                  some ((n1 * 4 + n2 / 16) :: (n2 % 16 * 16 + n3 / 4) ::
                    (n3 % 4 * 64 + n4) :: tail)
              | none => none
            | none => none
        | none => none
    | _, _ => none
  | _ => none

/-- Base64 decoding of a string. -/
def base64Decode (s : String) : Option (List Nat) := base64DecodeChars s.data

/-! ### `image utils` (src/unnamed/part_000) -/

/-- Outcome of `axios.get(imageUrl, { responseType: 'arraybuffer', timeout: 10000 })`
when the request resolves: the body bytes and the `content-type` response header
(`none` when the header is absent). -/
structure AxiosImageResponse where
  body : List Nat
  contentTypeHeader : Option String

/-- Embedding of `fetchImageAsBase64`.  Its argument is the outcome of the
single axios call it performs: `none` when the request failed (network error,
timeout, or non-success status, all of which reject the axios promise and land
in the `catch`), `some r` when it resolved.  Mirrors
`const contentType = response.headers['content-type'] || 'image/jpeg'`
(JavaScript `||` falls through on the empty string as well as on a missing
header) and `` `data:${contentType};base64,${base64}` ``. -/
def fetchImageAsBase64 (outcome : Option AxiosImageResponse) : Option String :=
  match outcome with
  | none => none
  | some r =>
    let contentType :=
      match r.contentTypeHeader with
      | some c => if c = "" then "image/jpeg" else c
      | none => "image/jpeg"
    some ("data:" ++ contentType ++ ";base64," ++ base64Encode r.body)

/-- Scheme characters allowed after the first letter of a URL scheme. -/
def isSchemeChar (c : Char) : Bool := c.isAlpha || c.isDigit || c == '+' || c == '-' || c == '.'

/-- Split a character list at the first character satisfying `p`; the second
component starts with that character (or is empty when none matches). -/
def takeUntil (p : Char → Bool) : List Char → List Char × List Char
  | [] => ([], [])
  | c :: cs =>
    if p c then ([], c :: cs)
    else
      let r := takeUntil p cs
      (c :: r.1, r.2)

/-- The part of a parsed URL that `isValidImageUrl` consults. -/
structure URLParts where
  pathname : String

/-- Model of the WHATWG `new URL(url)` constructor from the JavaScript
standard library, simplified to the syntactic shape `isValidImageUrl` relies
on: a URL is a scheme (letter followed by scheme characters) and a colon; a
`//` introduces an authority, which must be non-empty and runs to the first
`/`, `?` or `#`; the pathname then runs to the first `?` or `#` (defaulting to
`/`); without `//` the remainder up to `?` or `#` is an opaque path.  Strings
with no colon-terminated scheme (such as `not a url`) fail to parse, as they
throw in the source. -/
def parseURL (s : String) : Option URLParts :=
  let split := takeUntil (fun c => c == ':') s.data
  match split.2 with
  | ':' :: rest =>
    if h : split.1 = [] then none
    else if !(split.1.head (by simpa using h)).isAlpha then none
    else if !split.1.all isSchemeChar then none
    else
      match rest with
      | '/' :: '/' :: afterSlashes =>
        let hostSplit := takeUntil (fun c => c == '/' || c == '?' || c == '#') afterSlashes
        if hostSplit.1 = [] then none
        else
          let pathSplit := takeUntil (fun c => c == '?' || c == '#') hostSplit.2
          some ⟨String.mk (if pathSplit.1 = [] then ['/'] else pathSplit.1)⟩
      | _ =>
        let pathSplit := takeUntil (fun c => c == '?' || c == '#') rest
        some ⟨String.mk pathSplit.1⟩
  | _ => none

/-- The fixed extension list of `isValidImageUrl`. -/
def validExtensions : List String := [".jpg", ".jpeg", ".png", ".gif", ".webp", ".bmp"]

/-- Model of JavaScript `toLowerCase()` on the ASCII range. -/
def toLowerAscii (s : String) : String := String.mk (s.data.map Char.toLower)

/-- Model of JavaScript `String.endsWith`. -/
def listEndsWith (l tail : List Char) : Bool := List.isPrefixOf tail.reverse l.reverse

/-- Embedding of `isValidImageUrl(url)`.  `none` stands for `null`/`undefined`;
`!url` is also true for the empty string.  Mirrors
`new URL(url)` (throw caught as `false`), `urlObj.pathname.toLowerCase()` and
`validExtensions.some(ext => pathname.endsWith(ext))`. -/
def isValidImageUrl (url : Option String) : Bool :=
  match url with
  | none => false
  | some u =>
    if u = "" then false
    else
      match parseURL u with
      | none => false
      | some parts =>
        validExtensions.any (fun ext => listEndsWith (toLowerAscii parts.pathname).data ext.data)

/-! ### Medical-history data model (rows as returned by the store with
`include: { patient: true, staff: true }`) -/

/-- Joined patient row (fields the core reads). -/
structure PatientRow where
  id : Int
  name : String
  patient_code : String
  deriving DecidableEq

/-- Joined staff row (fields the core reads). -/
structure StaffRow where
  id : Int
  name : String
  deriving DecidableEq

/-- One `medical_history` row with its joined `patient` (non-null, enforced by
the foreign key) and optional `staff`.  `appointment_date`, `created_at` and
`updated_at` are timestamps, modelled as integers ordered chronologically.
The nullable `body_annotation` column (an attachment URL) is modelled by the
field `body_annot`. -/
structure HistoryRow where
  id : Int
  patient_id : Int
  appointment_date : Int
  staff_id : Option Int
  patient : PatientRow
  staff : Option StaffRow
  service_type : Option String
  area_concern : Option String
  diagnosis_result : Option String
  pain_before : Option Int
  pain_after : Option Int
  range_of_motion_impact : Option String
  treatments : Option String
  exercise : Option String
  homework : Option String
  recovery_tips : Option String
  recommended_next_session : Option String
  additional_notes : Option String
  body_annot : Option String
  created_at : Int
  updated_at : Int
  deriving DecidableEq

/-- Output shape of `formatMedicalHistoryForTable` (field `body_annot`
models `body_annotation`). -/
structure FormattedHistory where
  id : Int
  patient_id : Int
  patient_name : String
  patient_code : String
  appointment_date : Int
  staff_id : Option Int
  staff_name : String
  service_type : Option String
  area_concern : Option String
  diagnosis_result : Option String
  pain_before : Option Int
  pain_after : Option Int
  pain_reduction : Option Int
  range_of_motion_impact : Option String
  treatments : Option String
  exercise : Option String
  homework : Option String
  recovery_tips : Option String
  recommended_next_session : Option String
  additional_notes : Option String
  body_annot : Option String
  created_at : Int
  updated_at : Int

/-- Model of the JavaScript idiom `x || '-'` on a string. -/
def jsStringOrDash (s : String) : String := if s = "" then "-" else s

namespace MedicalHistoryDAO

/-- The record built by `formatMedicalHistoryForTable` for a non-null row.
`pain_reduction` mirrors
`history.pain_before && history.pain_after ? history.pain_before - history.pain_after : null`:
JavaScript `&&` treats `null`/`undefined` and `0` as falsy, so the difference
is computed only when both values are present and non-zero. -/
def formatRow (history : HistoryRow) : FormattedHistory :=
  { id := history.id
    patient_id := history.patient_id
    patient_name := jsStringOrDash history.patient.name
    patient_code := jsStringOrDash history.patient.patient_code
    appointment_date := history.appointment_date
    staff_id := history.staff_id
    staff_name :=
      match history.staff with
      | none => "-"
      | some s => jsStringOrDash s.name
    service_type := history.service_type
    area_concern := history.area_concern
    diagnosis_result := history.diagnosis_result
    pain_before := history.pain_before
    pain_after := history.pain_after
    pain_reduction :=
      match history.pain_before, history.pain_after with
      | some b, some a => if b ≠ 0 ∧ a ≠ 0 then some (b - a) else none
      | _, _ => none
    range_of_motion_impact := history.range_of_motion_impact
    treatments := history.treatments
    exercise := history.exercise
    homework := history.homework
    recovery_tips := history.recovery_tips
    recommended_next_session := history.recommended_next_session
    additional_notes := history.additional_notes
    body_annot := history.body_annot
    created_at := history.created_at
    updated_at := history.updated_at }

/-- Embedding of `formatMedicalHistoryForTable(history)`:
`if (!history) return null`, otherwise the formatted record. -/
def formatMedicalHistoryForTable : Option HistoryRow → Option FormattedHistory
  | none => none
  | some history => some (formatRow history)

/-- Chronological order on rows, as requested from the store by
`orderBy: { appointment_date: 'asc' }`. -/
def historyDateLE (a b : HistoryRow) : Prop := a.appointment_date ≤ b.appointment_date

instance : DecidableRel historyDateLE := fun a b => Int.decLe a.appointment_date b.appointment_date

instance : IsTotal HistoryRow historyDateLE := ⟨fun a b => Int.le_total a.appointment_date b.appointment_date⟩

instance : IsTrans HistoryRow historyDateLE := ⟨fun _ _ _ => Int.le_trans⟩

/-- Model of `model.findMany({ where: { patient_id }, include: {...},
orderBy: { appointment_date: 'asc' } })` against a store holding the rows in
insertion order: the rows of the patient, stably sorted by appointment date. -/
def sortedHistories (store : List HistoryRow) (patient_id : Int) : List HistoryRow :=
  List.insertionSort historyDateLE (store.filter (fun r => decide (r.patient_id = patient_id)))

/-- One element of the `sessions` array: the spread `...formatted` is the
`base` field, extended with `session_number`, `session_date`,
`body_annot_url` (modelling `body_annotation_url`) and `body_annot_base64`
(modelling `body_annotation_base64`). -/
structure ProgressSession where
  base : FormattedHistory
  session_number : Nat
  session_date : Int
  body_annot_url : Option String
  body_annot_base64 : Option String

/-- The aggregate returned by the progress-report composer. -/
structure ProgressReport where
  patient : Option PatientRow
  total_sessions : Nat
  sessions : List ProgressSession

/-- The session record built for one row once its formatted form is at hand. -/
def sessionFromFormatted (fetch : String → Option String) (index : Nat)
    (history : HistoryRow) (formatted : FormattedHistory) : ProgressSession :=
  { base := formatted
    session_number := index + 1
    session_date := history.appointment_date
    body_annot_url := formatted.body_annot
    body_annot_base64 :=
      if isValidImageUrl formatted.body_annot then
        match formatted.body_annot with
        | some u => fetch u
        | none => none
      else none }

/-- The async mapper of `getPatientProgressReport`: formats the row (returning
`null` on a null formatted result — the guard clause), pre-filters the
attachment URL with `isValidImageUrl` and fetches it through
`fetchImageAsBase64` when plausible; a failed fetch leaves the base64 field
`null`.  `fetch` gives the outcome of each `fetchImageAsBase64` call. -/
def mkSession (fetch : String → Option String) (index : Nat) (history : HistoryRow) :
    Option ProgressSession :=
  match formatMedicalHistoryForTable (some history) with
  | none => none
  | some formatted => some (sessionFromFormatted fetch index history formatted)

/-- JavaScript `Array.map` with the element index, starting at `i`. -/
def mapWithIndex (f : Nat → α → β) : Nat → List α → List β
  | _, [] => []
  | i, a :: as => f i a :: mapWithIndex f (i + 1) as

/-- Embedding of `medicalHistoryDAO.getPatientProgressReport(patient_id)`.
The store query is `sortedHistories`; the per-row enrichment is fanned out
with `Promise.all`, whose join preserves the index-to-result mapping, so it is
the indexed map `mapWithIndex`; null sessions are then filtered out, and the
aggregate carries `histories[0]?.patient || null`, the count of non-null
sessions, and the sessions themselves. -/
def getPatientProgressReport (store : List HistoryRow) (fetch : String → Option String)
    (patient_id : Int) : ProgressReport :=
  let histories := sortedHistories store patient_id
  let sessionsWithBase64Images := mapWithIndex (mkSession fetch) 0 histories
  let validSessions := sessionsWithBase64Images.filterMap id
  { patient :=
      match histories.head? with
      | none => none
      | some h => some h.patient
    total_sessions := validSessions.length
    sessions := validSessions }

end MedicalHistoryDAO

/-! ### Medical-history controller -/

/-- A JSON request-body field as delivered by the body parser: absent
(`undefined`), `null`, or a JSON number (JavaScript numbers restricted to the
rationals; the pain checks involve no other value shape). -/
inductive JsonValue
  | undef
  | null
  | num (q : ℚ)

namespace MedicalHistoryController

/-- The pain-scale validation used verbatim by both `createMedicalHistory`
(lines 42-55) and `updateMedicalHistory` (lines 217-230):
`if (v !== undefined) { if (v < 1 || v > 10) reject }`.  A JavaScript `<`/`>`
comparison coerces `null` to `0`, so a `null` value is rejected; a defined
number passes exactly when neither `v < 1` nor `v > 10`. -/
def painScaleCheck : JsonValue → Bool
  | .undef => true
  | .null => if (0 : ℚ) < 1 ∨ (0 : ℚ) > 10 then false else true
  | .num q => if q < 1 ∨ q > 10 then false else true

/-- What `formatCreate` forwards to the store for a pain field:
`if (data.pain_before !== undefined) formatted.pain_before = data.pain_before`
(the `null` case never reaches the store, being rejected by the check). -/
def painToStored : JsonValue → Option ℚ
  | .undef => none
  | .null => none
  | .num q => some q

/-- Result of the pain-scale gate of `createMedicalHistory` /
`updateMedicalHistory`: either a rejection with the source's message (sent
before any store mutation) or the pair of pain values that the mutation
stores. -/
inductive CreatePainOutcome
  | rejected (message : String)
  | stored (pain_before pain_after : Option ℚ)

/-- The pain-scale slice of the create/update pipeline: check `pain_before`,
then `pain_after`, and only if both pass forward the values to the store. -/
def createMedicalHistoryPainGate (pain_before pain_after : JsonValue) : CreatePainOutcome :=
  if painScaleCheck pain_before = false then .rejected "Pain before must be between 1 and 10"
  else if painScaleCheck pain_after = false then .rejected "Pain after must be between 1 and 10"
  else .stored (painToStored pain_before) (painToStored pain_after)

/-- Response of the progress-report endpoint: 400 on a non-numeric id, 404
with `No medical history found for this patient` when the report has no
patient, 200 with the report otherwise. -/
inductive ProgressReportResponse
  | invalidId
  | notFoundNoHistory
  | ok (report : MedicalHistoryDAO.ProgressReport)

/-- Embedding of the controller's `getPatientProgressReport`:
`parseInt(req.params.patientId)` is `none` when `isNaN`; otherwise the DAO
report is computed and `if (!report.patient)` returns the 404. -/
def getPatientProgressReport (store : List HistoryRow) (fetch : String → Option String)
    (patientIdParam : Option Int) : ProgressReportResponse :=
  match patientIdParam with
  | none => .invalidId
  | some patientId =>
    let report := MedicalHistoryDAO.getPatientProgressReport store fetch patientId
    match report.patient with
    | none => .notFoundNoHistory
    | some _ => .ok report

end MedicalHistoryController

/-! ### Auth middleware (processToken / optional) -/

/-- The claims a verified token decodes to: the embedded account id and the
`authenticated` flag the `auth` gate checks. -/
structure DecodedToken where
  id : Int
  authenticated : Bool
  deriving DecidableEq

/-- An account row from the `users` store: id and active flag. -/
structure User where
  id : Int
  active : Bool
  deriving DecidableEq

namespace Auth

/-- Outcome of `processToken`: the success callback receives the decoded
claims with the resolved user attached; every error callback receives a
failure code. -/
inductive ProcessTokenResult
  | success (decoded : DecodedToken) (user : User)
  | failure (code : String)
  deriving DecidableEq

/-- JavaScript `String.replace(' ', '_')`: only the first space is replaced. -/
def replaceFirstSpace : List Char → List Char
  | [] => []
  | c :: cs => if c = ' ' then '_' :: cs else c :: replaceFirstSpace cs

/-- JavaScript `toUpperCase()` on the ASCII range. -/
def jsToUpperCase (s : String) : String := String.mk (s.data.map Char.toUpper)

/-- The catch branch's failure code:
`message.toUpperCase().replace(' ', '_')`. -/
def errorCode (message : String) : String :=
  String.mk (replaceFirstSpace (jsToUpperCase message).data)

/-- JavaScript `String.split(' ')` (split on every single space, keeping
empty segments). -/
def splitOnSpaceChars : List Char → List (List Char)
  | [] => [[]]
  | c :: cs =>
    if c = ' ' then [] :: splitOnSpaceChars cs
    else
      match splitOnSpaceChars cs with
      | [] => [[c]]
      | r :: rs => (c :: r) :: rs

/-- `h.split(' ')` as a list of strings. -/
def jsSplitSpace (s : String) : List String := (splitOnSpaceChars s.data).map String.mk

/-- Embedding of `processToken`.  `authorization` is the raw
`Authorization` header (`none` when missing; the JavaScript truthiness test
also treats the empty string as missing).  `tokenSecret` is
`process.env.TOKEN_SECRET` (`none` when unset, and `!secret` is also true for
the empty string).  `jwtVerify token secret` is the outcome of
`jwt.verify(token, secret)`: the decoded claims, or the thrown error's
message.  `users` is the account store consulted by `UserDAO.getById`. -/
def processToken (authorization : Option String) (tokenSecret : Option String)
    (jwtVerify : String → String → Except String DecodedToken) (users : List User) :
    ProcessTokenResult :=
  match authorization with
  | none => .failure "BAD_TOKEN_FORMAT"
  | some h =>
    if h = "" then .failure "BAD_TOKEN_FORMAT"
    else
      match (jsSplitSpace h).get? 1 with
      | none => .failure "NO_TOKEN_PROVIDED"
      | some token =>
        if token = "" then .failure "NO_TOKEN_PROVIDED"
        else
          match tokenSecret with
          | none => .failure "NO_SECRET_DEFINED"
          | some secret =>
            if secret = "" then .failure "NO_SECRET_DEFINED"
            else
              match jwtVerify token secret with
              | .error message => .failure (errorCode message)
              | .ok decoded =>
                match users.find? (fun u => decide (u.id = decoded.id)) with
                | none => .failure "USER_NOT_FOUND"
                | some user =>
                  if user.active then .success decoded user
                  else .failure "ACCOUNT_DEACTIVATED"

/-- Outcome of the `optional` middleware: `next()` is always called, either
with the anonymous context `{ none: true }` or with the verified identity. -/
inductive OptionalAuthResult
  | anonymous
  | identified (decoded : DecodedToken) (user : User)
  deriving DecidableEq

/-- Embedding of the `optional` gate: a missing (or empty, hence falsy)
`Authorization` header proceeds anonymously without calling `processToken`;
otherwise `processToken` runs, its success keeps the identity, and its error
callback overwrites the context with `{ none: true }` and proceeds — the
failure is swallowed. -/
def optional (authorization : Option String) (tokenSecret : Option String)
    (jwtVerify : String → String → Except String DecodedToken) (users : List User) :
    OptionalAuthResult :=
  match authorization with
  | none => .anonymous
  | some h =>
    if h = "" then .anonymous
    else
      match processToken (some h) tokenSecret jwtVerify users with
      | .success decoded user => .identified decoded user
      | .failure _ => .anonymous

end Auth

/-- A medical-history row with the given keys, dates and pain values, and
neutral values elsewhere; used to instantiate theorems at concrete inputs. -/
def mkRow (id patient_id appointment_date : Int) (pain_before pain_after : Option Int) :
    HistoryRow :=
  { id := id
    patient_id := patient_id
    appointment_date := appointment_date
    staff_id := none
    patient := { id := patient_id, name := "P", patient_code := "PC" }
    staff := none
    service_type := none
    area_concern := none
    diagnosis_result := none
    pain_before := pain_before
    pain_after := pain_after
    range_of_motion_impact := none
    treatments := none
    exercise := none
    homework := none
    recovery_tips := none
    recommended_next_session := none
    additional_notes := none
    body_annot := none
    created_at := 0
    updated_at := 0 }

/-! ### Supporting lemmas -/

/-- Decoding inverts encoding on each 6-bit value. -/
theorem decodeChar_encodeChar : ∀ n, n < 64 → decodeChar (encodeChar n) = some n := by decide

/-- No 6-bit value encodes to the padding character. -/
theorem encodeChar_ne_pad : ∀ n, n < 64 → encodeChar n ≠ '=' := by decide

theorem mk_data_append (l : List Char) (s : String) : (String.mk l ++ s).data = l ++ s.data := by
  cases s
  rfl

/-- Round trip: base64-decoding the base64 encoding of any byte list gives the
bytes back. -/
theorem base64_roundTrip : ∀ B : List Nat, (∀ b ∈ B, b < 256) →
    base64Decode (base64Encode B) = some B := by
  intro B
  induction B using base64Encode.induct with
  | case1 => intro _; rfl
  | case2 b1 =>
    intro hb
    have h1 : b1 < 256 := hb b1 (by simp)
    have d1 : decodeChar (encodeChar (b1 / 4)) = some (b1 / 4) :=
      decodeChar_encodeChar _ (by omega)
    have d2 : decodeChar (encodeChar (b1 % 4 * 16)) = some (b1 % 4 * 16) :=
      decodeChar_encodeChar _ (by omega)
    have hm : b1 % 4 * 16 % 16 = 0 := by omega
    unfold base64Decode base64Encode
    simp [base64DecodeChars, d1, d2, hm]
    omega
  | case3 b1 b2 =>
    intro hb
    have h1 : b1 < 256 := hb b1 (by simp)
    have h2 : b2 < 256 := hb b2 (by simp)
    have d1 : decodeChar (encodeChar (b1 / 4)) = some (b1 / 4) :=
      decodeChar_encodeChar _ (by omega)
    have d2 : decodeChar (encodeChar (b1 % 4 * 16 + b2 / 16)) = some (b1 % 4 * 16 + b2 / 16) :=
      decodeChar_encodeChar _ (by omega)
    have d3 : decodeChar (encodeChar (b2 % 16 * 4)) = some (b2 % 16 * 4) :=
      decodeChar_encodeChar _ (by omega)
    have n3 : ¬ encodeChar (b2 % 16 * 4) = '=' := encodeChar_ne_pad _ (by omega)
    have hm : b2 % 16 * 4 % 4 = 0 := by omega
    unfold base64Decode base64Encode
    simp [base64DecodeChars, d1, d2, d3, n3, hm]
    constructor
    · omega
    · omega
  | case4 b1 b2 b3 rest ih =>
    intro hb
    have h1 : b1 < 256 := hb b1 (by simp)
    have h2 : b2 < 256 := hb b2 (by simp)
    have h3 : b3 < 256 := hb b3 (by simp)
    have hrest : ∀ b ∈ rest, b < 256 := fun b hbm => hb b (by simp [hbm])
    have d1 : decodeChar (encodeChar (b1 / 4)) = some (b1 / 4) :=
      decodeChar_encodeChar _ (by omega)
    have d2 : decodeChar (encodeChar (b1 % 4 * 16 + b2 / 16)) = some (b1 % 4 * 16 + b2 / 16) :=
      decodeChar_encodeChar _ (by omega)
    have d3 : decodeChar (encodeChar (b2 % 16 * 4 + b3 / 64)) = some (b2 % 16 * 4 + b3 / 64) :=
      decodeChar_encodeChar _ (by omega)
    have d4 : decodeChar (encodeChar (b3 % 64)) = some (b3 % 64) :=
      decodeChar_encodeChar _ (by omega)
    have n3 : ¬ encodeChar (b2 % 16 * 4 + b3 / 64) = '=' := encodeChar_ne_pad _ (by omega)
    have n4 : ¬ encodeChar (b3 % 64) = '=' := encodeChar_ne_pad _ (by omega)
    have ihr := ih hrest
    unfold base64Decode at ihr
    unfold base64Decode base64Encode
    rw [mk_data_append]
    simp [base64DecodeChars, d1, d2, d3, d4, n3, n4, ihr]
    refine ⟨by omega, by omega, by omega⟩

namespace MedicalHistoryDAO

theorem mkSession_eq (fetch : String → Option String) (i : Nat) (h : HistoryRow) :
    mkSession fetch i h = some (sessionFromFormatted fetch i h (formatRow h)) := rfl

theorem mapWithIndex_filterMap_some (g : Nat → α → β) :
    ∀ (i : Nat) (l : List α),
      (mapWithIndex (fun j a => some (g j a)) i l).filterMap id = mapWithIndex g i l := by
  intro i l
  induction l generalizing i with
  | nil => rfl
  | cons a as ih => simp [mapWithIndex, ih]

theorem mapWithIndex_length (f : Nat → α → β) :
    ∀ (i : Nat) (l : List α), (mapWithIndex f i l).length = l.length := by
  intro i l
  induction l generalizing i with
  | nil => rfl
  | cons a as ih => simp [mapWithIndex, ih]

theorem mapWithIndex_map_eq (f : Nat → α → β) (g : β → γ) (k : α → γ)
    (hk : ∀ i a, g (f i a) = k a) :
    ∀ (i : Nat) (l : List α), (mapWithIndex f i l).map g = l.map k := by
  intro i l
  induction l generalizing i with
  | nil => rfl
  | cons a as ih => simp [mapWithIndex, hk, ih]

theorem mapWithIndex_map_index (f : Nat → α → β) (g : β → Nat)
    (hk : ∀ i a, g (f i a) = i + 1) :
    ∀ (i : Nat) (l : List α), (mapWithIndex f i l).map g = List.range' (i + 1) l.length := by
  intro i l
  induction l generalizing i with
  | nil => rfl
  | cons a as ih => simp [mapWithIndex, hk, ih, List.range'_succ]

/-- The sessions of a report are the indexed map of the session builder over
the chronologically sorted rows: the null filter drops nothing, since every
row formats to a non-null record. -/
theorem sessions_eq (store : List HistoryRow) (fetch : String → Option String) (pid : Int) :
    (getPatientProgressReport store fetch pid).sessions
      = mapWithIndex (fun i h => sessionFromFormatted fetch i h (formatRow h)) 0
          (sortedHistories store pid) := by
  show (mapWithIndex (mkSession fetch) 0 (sortedHistories store pid)).filterMap id = _
  rw [show mkSession fetch = fun j a => some (sessionFromFormatted fetch j a (formatRow a)) from rfl]
  exact mapWithIndex_filterMap_some _ 0 _

theorem total_sessions_eq (store : List HistoryRow) (fetch : String → Option String) (pid : Int) :
    (getPatientProgressReport store fetch pid).total_sessions
      = (getPatientProgressReport store fetch pid).sessions.length := rfl

theorem sorted_sortedHistories (store : List HistoryRow) (pid : Int) :
    List.Sorted historyDateLE (sortedHistories store pid) :=
  List.sorted_insertionSort historyDateLE _

theorem perm_sortedHistories (store : List HistoryRow) (pid : Int) :
    (sortedHistories store pid).Perm (store.filter (fun r => decide (r.patient_id = pid))) :=
  List.perm_insertionSort historyDateLE _

end MedicalHistoryDAO

/-! ### Claims -/

/-- Claim C1: for every patient identifier and stored record set, the report
returned by `getPatientProgressReport` lists its sessions ordered ascending by
appointment date; each session's `session_number` equals its 1-based position
in that sequence; the session dates are exactly the patient's record dates
(as a multiset); the sessions are the formatted records in sorted order; and
the resulting date sequence is independent of the insertion order of the
store. -/
theorem claim_C1 (store : List HistoryRow) (fetch : String → Option String) (pid : Int) :
    List.Sorted (fun a b : Int => a ≤ b)
      ((MedicalHistoryDAO.getPatientProgressReport store fetch pid).sessions.map
        (fun s => s.session_date))
    ∧ (MedicalHistoryDAO.getPatientProgressReport store fetch pid).sessions.map
        (fun s => s.session_number)
      = List.range' 1 (MedicalHistoryDAO.getPatientProgressReport store fetch pid).sessions.length
    ∧ ((MedicalHistoryDAO.getPatientProgressReport store fetch pid).sessions.map
        (fun s => s.session_date)).Perm
        ((store.filter (fun r => decide (r.patient_id = pid))).map (fun r => r.appointment_date))
    ∧ (MedicalHistoryDAO.getPatientProgressReport store fetch pid).sessions.map (fun s => s.base)
      = (MedicalHistoryDAO.sortedHistories store pid).map MedicalHistoryDAO.formatRow
    ∧ ∀ store' : List HistoryRow, store'.Perm store →
      (MedicalHistoryDAO.getPatientProgressReport store' fetch pid).sessions.map
        (fun s => s.session_date)
      = (MedicalHistoryDAO.getPatientProgressReport store fetch pid).sessions.map
        (fun s => s.session_date) := by
  have hdates : ∀ st : List HistoryRow,
      (MedicalHistoryDAO.getPatientProgressReport st fetch pid).sessions.map
        (fun s => s.session_date)
      = (MedicalHistoryDAO.sortedHistories st pid).map (fun r => r.appointment_date) := by
    intro st
    rw [MedicalHistoryDAO.sessions_eq]
    exact MedicalHistoryDAO.mapWithIndex_map_eq
      (fun i h => MedicalHistoryDAO.sessionFromFormatted fetch i h (MedicalHistoryDAO.formatRow h))
      (fun s => s.session_date) (fun r => r.appointment_date) (fun i a => rfl) 0 _
  have hsorted : ∀ st : List HistoryRow,
      List.Sorted (fun a b : Int => a ≤ b)
        ((MedicalHistoryDAO.getPatientProgressReport st fetch pid).sessions.map
          (fun s => s.session_date)) := by
    intro st
    rw [hdates st]
    exact List.Pairwise.map _ (fun a b hab => hab)
      (MedicalHistoryDAO.sorted_sortedHistories st pid)
  have hperm : ∀ st : List HistoryRow,
      ((MedicalHistoryDAO.getPatientProgressReport st fetch pid).sessions.map
        (fun s => s.session_date)).Perm
        ((st.filter (fun r => decide (r.patient_id = pid))).map (fun r => r.appointment_date)) := by
    intro st
    rw [hdates st]
    exact (MedicalHistoryDAO.perm_sortedHistories st pid).map _
  refine ⟨hsorted store, ?_, hperm store, ?_, ?_⟩
  · rw [MedicalHistoryDAO.sessions_eq,
      MedicalHistoryDAO.mapWithIndex_map_index
        (fun i h => MedicalHistoryDAO.sessionFromFormatted fetch i h (MedicalHistoryDAO.formatRow h))
        (fun s => s.session_number) (fun i a => rfl),
      MedicalHistoryDAO.mapWithIndex_length]
  · rw [MedicalHistoryDAO.sessions_eq]
    exact MedicalHistoryDAO.mapWithIndex_map_eq
      (fun i h => MedicalHistoryDAO.sessionFromFormatted fetch i h (MedicalHistoryDAO.formatRow h))
      (fun s => s.base) MedicalHistoryDAO.formatRow (fun i a => rfl) 0 _
  · intro store' hp
    refine List.eq_of_perm_of_sorted ?_ (hsorted store') (hsorted store)
    exact ((hperm store').trans ((hp.filter _).map _)).trans (hperm store).symm

/-- Witness for C1 at a concrete store: three records of patient 1 dated
3, 2, 1 are a permutation of the same records dated 1, 3, 2, and the reports
over the two insertion orders list the same session dates. -/
theorem claim_C1_witness :
    ([mkRow 2 1 3 none none, mkRow 3 1 2 none none, mkRow 1 1 1 none none] : List HistoryRow).Perm
      [mkRow 1 1 1 none none, mkRow 2 1 3 none none, mkRow 3 1 2 none none]
    ∧ (MedicalHistoryDAO.getPatientProgressReport
        [mkRow 2 1 3 none none, mkRow 3 1 2 none none, mkRow 1 1 1 none none]
        (fun _ => none) 1).sessions.map (fun s => s.session_date)
      = (MedicalHistoryDAO.getPatientProgressReport
        [mkRow 1 1 1 none none, mkRow 2 1 3 none none, mkRow 3 1 2 none none]
        (fun _ => none) 1).sessions.map (fun s => s.session_date) :=
  ⟨by decide,
   (claim_C1 [mkRow 1 1 1 none none, mkRow 2 1 3 none none, mkRow 3 1 2 none none]
      (fun _ => none) 1).2.2.2.2
     [mkRow 2 1 3 none none, mkRow 3 1 2 none none, mkRow 1 1 1 none none] (by decide)⟩

/-- Claim C2: for a patient with zero stored Medical History Records the DAO
report's `patient` field is null, and the controller returns the not-found
response rather than an empty-but-present report. -/
theorem claim_C2 (store : List HistoryRow) (fetch : String → Option String) (pid : Int)
    (hempty : ∀ r ∈ store, r.patient_id ≠ pid) :
    (MedicalHistoryDAO.getPatientProgressReport store fetch pid).patient = none
    ∧ MedicalHistoryController.getPatientProgressReport store fetch (some pid)
      = MedicalHistoryController.ProgressReportResponse.notFoundNoHistory := by
  have hfil : store.filter (fun r => decide (r.patient_id = pid)) = [] := by
    simp [List.filter_eq_nil_iff]
    exact hempty
  have hsorted : MedicalHistoryDAO.sortedHistories store pid = [] := by
    unfold MedicalHistoryDAO.sortedHistories
    rw [hfil]
    rfl
  have hpat : (MedicalHistoryDAO.getPatientProgressReport store fetch pid).patient = none := by
    show (match (MedicalHistoryDAO.sortedHistories store pid).head? with
      | none => none
      | some h => some h.patient) = none
    rw [hsorted]
    rfl
  refine ⟨hpat, ?_⟩
  simp [MedicalHistoryController.getPatientProgressReport, hpat]

/-- Witness for C2: the empty store holds no record of patient 1, and the
endpoint answers not-found for patient 1. -/
theorem claim_C2_witness :
    (∀ r ∈ ([] : List HistoryRow), r.patient_id ≠ 1)
    ∧ MedicalHistoryController.getPatientProgressReport [] (fun _ => none) (some 1)
      = MedicalHistoryController.ProgressReportResponse.notFoundNoHistory :=
  ⟨by simp, (claim_C2 [] (fun _ => none) 1 (by simp)).2⟩

/-- Claim C3: whatever the per-URL fetch outcomes, the report keeps every one
of the patient's records as a session, in chronological order; the original
attachment URL is preserved on every session; the base64 field is the fetch
result exactly when the URL passed `isValidImageUrl` (null otherwise, and null
again when the fetch failed); and `total_sessions` counts the returned
sessions. -/
theorem claim_C3 (store : List HistoryRow) (fetch : String → Option String) (pid : Int) :
    (MedicalHistoryDAO.getPatientProgressReport store fetch pid).sessions.length
      = (store.filter (fun r => decide (r.patient_id = pid))).length
    ∧ (MedicalHistoryDAO.getPatientProgressReport store fetch pid).total_sessions
      = (MedicalHistoryDAO.getPatientProgressReport store fetch pid).sessions.length
    ∧ (MedicalHistoryDAO.getPatientProgressReport store fetch pid).sessions.map
        (fun s => s.session_date)
      = (MedicalHistoryDAO.sortedHistories store pid).map (fun r => r.appointment_date)
    ∧ (MedicalHistoryDAO.getPatientProgressReport store fetch pid).sessions.map
        (fun s => s.body_annot_url)
      = (MedicalHistoryDAO.sortedHistories store pid).map (fun r => r.body_annot)
    ∧ (MedicalHistoryDAO.getPatientProgressReport store fetch pid).sessions.map
        (fun s => s.body_annot_base64)
      = (MedicalHistoryDAO.sortedHistories store pid).map
          (fun r =>
            if isValidImageUrl r.body_annot then
              match r.body_annot with
              | some u => fetch u
              | none => none
            else none) := by
  refine ⟨?_, rfl, ?_, ?_, ?_⟩
  · rw [MedicalHistoryDAO.sessions_eq, MedicalHistoryDAO.mapWithIndex_length]
    exact (MedicalHistoryDAO.perm_sortedHistories store pid).length_eq
  · rw [MedicalHistoryDAO.sessions_eq]
    exact MedicalHistoryDAO.mapWithIndex_map_eq
      (fun i h => MedicalHistoryDAO.sessionFromFormatted fetch i h (MedicalHistoryDAO.formatRow h))
      (fun s => s.session_date) (fun r => r.appointment_date) (fun i a => rfl) 0 _
  · rw [MedicalHistoryDAO.sessions_eq]
    exact MedicalHistoryDAO.mapWithIndex_map_eq
      (fun i h => MedicalHistoryDAO.sessionFromFormatted fetch i h (MedicalHistoryDAO.formatRow h))
      (fun s => s.body_annot_url) (fun r => r.body_annot) (fun i a => rfl) 0 _
  · rw [MedicalHistoryDAO.sessions_eq]
    exact MedicalHistoryDAO.mapWithIndex_map_eq
      (fun i h => MedicalHistoryDAO.sessionFromFormatted fetch i h (MedicalHistoryDAO.formatRow h))
      (fun s => s.body_annot_base64)
      (fun r =>
        if isValidImageUrl r.body_annot then
          match r.body_annot with
          | some u => fetch u
          | none => none
        else none)
      (fun i a => rfl) 0 _

/-- Claim C4 (amended): `ACCOUNT_DEACTIVATED` and `USER_NOT_FOUND` are issued
only once `jwt.verify` has accepted the token: on a header carrying a token
that verifies to `decoded`, an account store without the embedded id fails
with `USER_NOT_FOUND`, and one holding it as an inactive account fails with
`ACCOUNT_DEACTIVATED`.  (The original claim's "regardless of signature
validity" is refuted by `claim_C4_counterexample`.) -/
theorem claim_C4 (h secret : String) (tokenSecret : Option String)
    (jwtVerify : String → String → Except String DecodedToken) (users : List User)
    (token : String) (decoded : DecodedToken)
    (hne : h ≠ "") (htok : (Auth.jsSplitSpace h).get? 1 = some token) (htokne : token ≠ "")
    (hsec : tokenSecret = some secret) (hsecne : secret ≠ "")
    (hjwt : jwtVerify token secret = Except.ok decoded) :
    (users.find? (fun u => decide (u.id = decoded.id)) = none →
      Auth.processToken (some h) tokenSecret jwtVerify users
        = Auth.ProcessTokenResult.failure "USER_NOT_FOUND")
    ∧ (∀ user, users.find? (fun u => decide (u.id = decoded.id)) = some user →
        user.active = false →
        Auth.processToken (some h) tokenSecret jwtVerify users
          = Auth.ProcessTokenResult.failure "ACCOUNT_DEACTIVATED") := by
  subst hsec
  have htok2 : (Auth.jsSplitSpace h)[1]? = some token := by
    rw [← List.get?_eq_getElem?]
    exact htok
  constructor
  · intro hfind
    simp [Auth.processToken, hne, htok2, htokne, hsecne, hjwt, hfind]
  · intro user hfind hact
    simp [Auth.processToken, hne, htok2, htokne, hsecne, hjwt, hfind, hact]

/-- Counterexample for C4 as stated: a token bound to the deactivated account
7 (the only account in the store) whose signature does not verify fails with
the JWT error code `INVALID_SIGNATURE`, not with `ACCOUNT_DEACTIVATED`. -/
theorem claim_C4_counterexample :
    Auth.processToken (some "Bearer tok") (some "server-secret")
      (fun _ _ => Except.error "invalid signature") [{ id := 7, active := false }]
      = Auth.ProcessTokenResult.failure "INVALID_SIGNATURE"
    ∧ "INVALID_SIGNATURE" ≠ "ACCOUNT_DEACTIVATED" := by
  exact ⟨by decide, by decide⟩

/-- Witness for C4: a verified token embedding id 7 against a store whose
account 7 is inactive fails with `ACCOUNT_DEACTIVATED`. -/
theorem claim_C4_witness :
    Auth.processToken (some "Bearer tok") (some "server-secret")
      (fun _ _ => Except.ok { id := 7, authenticated := true }) [{ id := 7, active := false }]
      = Auth.ProcessTokenResult.failure "ACCOUNT_DEACTIVATED" :=
  (claim_C4 "Bearer tok" "server-secret" (some "server-secret")
      (fun _ _ => Except.ok { id := 7, authenticated := true }) [{ id := 7, active := false }]
      "tok" { id := 7, authenticated := true }
      (by decide) (by decide) (by decide) rfl (by decide) rfl).2
    { id := 7, active := false } (by decide) rfl

/-- Claim C5 (amended): a missing (or empty, hence falsy) `Authorization`
header fails with `BAD_TOKEN_FORMAT`, and a present header whose
`split(' ')[1]` segment is absent or empty fails with `NO_TOKEN_PROVIDED`;
neither code is the spec's `NO_TOKEN` (see `claim_C5_counterexample`). -/
theorem claim_C5 (tokenSecret : Option String)
    (jwtVerify : String → String → Except String DecodedToken) (users : List User) :
    (∀ authorization : Option String, authorization = none ∨ authorization = some "" →
      Auth.processToken authorization tokenSecret jwtVerify users
        = Auth.ProcessTokenResult.failure "BAD_TOKEN_FORMAT")
    ∧ (∀ h : String, h ≠ "" →
        ((Auth.jsSplitSpace h).get? 1 = none ∨ (Auth.jsSplitSpace h).get? 1 = some "") →
        Auth.processToken (some h) tokenSecret jwtVerify users
          = Auth.ProcessTokenResult.failure "NO_TOKEN_PROVIDED") := by
  constructor
  · rintro authorization (rfl | rfl)
    · rfl
    · rfl
  · rintro h hne (htok | htok) <;>
      rw [List.get?_eq_getElem?] at htok <;>
      simp [Auth.processToken, hne, htok]

/-- Counterexample for C5 as stated: a missing header fails with
`BAD_TOKEN_FORMAT`, and neither that code nor the missing-segment code
`NO_TOKEN_PROVIDED` equals the claimed `NO_TOKEN`. -/
theorem claim_C5_counterexample :
    Auth.processToken none (some "server-secret") (fun _ _ => Except.error "boom") []
      = Auth.ProcessTokenResult.failure "BAD_TOKEN_FORMAT"
    ∧ "BAD_TOKEN_FORMAT" ≠ "NO_TOKEN" ∧ "NO_TOKEN_PROVIDED" ≠ "NO_TOKEN" := by
  exact ⟨rfl, by decide, by decide⟩

/-- Witness for C5: concrete evaluations of the two amended branches — a
missing header, and the header `Bearer` with no token segment. -/
theorem claim_C5_witness :
    Auth.processToken none (some "s") (fun _ _ => Except.error "x") []
      = Auth.ProcessTokenResult.failure "BAD_TOKEN_FORMAT"
    ∧ Auth.processToken (some "Bearer") (some "s") (fun _ _ => Except.error "x") []
      = Auth.ProcessTokenResult.failure "NO_TOKEN_PROVIDED" :=
  ⟨(claim_C5 (some "s") (fun _ _ => Except.error "x") []).1 none (Or.inl rfl),
   (claim_C5 (some "s") (fun _ _ => Except.error "x") []).2 "Bearer" (by decide)
     (Or.inl (by decide))⟩

/-- Claim C6: in `optional` mode a request without an `Authorization` header
proceeds anonymously whatever the verifier oracle, secret, or account store
(the verifier is never consulted), and whenever `processToken` fails on a
supplied credential the wrapped operation still proceeds with the anonymous
context — the failure is swallowed, never surfaced. -/
theorem claim_C6 (tokenSecret : Option String)
    (jwtVerify : String → String → Except String DecodedToken) (users : List User) :
    (∀ (tokenSecret2 : Option String)
        (jwtVerify2 : String → String → Except String DecodedToken) (users2 : List User),
      Auth.optional none tokenSecret2 jwtVerify2 users2 = Auth.OptionalAuthResult.anonymous)
    ∧ (∀ (authorization : Option String) (code : String),
        Auth.processToken authorization tokenSecret jwtVerify users
          = Auth.ProcessTokenResult.failure code →
        Auth.optional authorization tokenSecret jwtVerify users
          = Auth.OptionalAuthResult.anonymous) := by
  constructor
  · intro _ _ _
    rfl
  · intro authorization code hfail
    cases authorization with
    | none => rfl
    | some h =>
      by_cases hne : h = ""
      · subst hne
        rfl
      · simp [Auth.optional, hne, hfail]

/-- Witness for C6: with no header the gate proceeds anonymously, and with a
header whose token is expired (`processToken` fails with `JWT_EXPIRED`) the
gate still proceeds anonymously. -/
theorem claim_C6_witness :
    Auth.optional none (some "s") (fun _ _ => Except.error "jwt expired") []
      = Auth.OptionalAuthResult.anonymous
    ∧ Auth.optional (some "Bearer tok") (some "s") (fun _ _ => Except.error "jwt expired") []
      = Auth.OptionalAuthResult.anonymous :=
  ⟨(claim_C6 (some "s") (fun _ _ => Except.error "jwt expired") []).1 (some "s")
      (fun _ _ => Except.error "jwt expired") [],
   (claim_C6 (some "s") (fun _ _ => Except.error "jwt expired") []).2 (some "Bearer tok")
     "JWT_EXPIRED" (by decide)⟩

/-- Claim C7: `isValidImageUrl` returns true exactly for a non-empty,
syntactically valid URL whose pathname, lowercased, ends in one of
`.jpg .jpeg .png .gif .webp .bmp`; in particular it accepts
`https://host/a/b.png` and rejects `https://host/a/b.pdf` and `not a url`. -/
theorem claim_C7 :
    (∀ url : Option String, isValidImageUrl url = true ↔
      ∃ u, url = some u ∧ u ≠ "" ∧ ∃ parts, parseURL u = some parts ∧
        ∃ ext ∈ validExtensions, listEndsWith (toLowerAscii parts.pathname).data ext.data = true)
    ∧ isValidImageUrl (some "https://host/a/b.png") = true
    ∧ isValidImageUrl (some "https://host/a/b.pdf") = false
    ∧ isValidImageUrl (some "not a url") = false := by
  refine ⟨?_, by decide, by decide, by decide⟩
  intro url
  cases url with
  | none => simp [isValidImageUrl]
  | some u =>
    by_cases hu : u = ""
    · subst hu
      simp [isValidImageUrl]
    · cases hp : parseURL u with
      | none => simp [isValidImageUrl, hu, hp]
      | some parts => simp [isValidImageUrl, hu, hp, List.any_eq_true]

/-- Claim C8 (amended): a successful fetch of bytes `B` yields exactly
`data:C;base64,` followed by `base64Encode B`, where `C` is the declared
content type when the header is present and non-empty and `image/jpeg` when
it is absent or empty; the base64 payload decodes back to `B`; and any failed
fetch yields null.  (The original claim's "C equals the declared type
whenever the header is present" fails on the empty header, see
`claim_C8_counterexample`.) -/
theorem claim_C8 (r : AxiosImageResponse) (hbytes : ∀ b ∈ r.body, b < 256) :
    (∀ c, r.contentTypeHeader = some c → c ≠ "" →
      fetchImageAsBase64 (some r) = some ("data:" ++ c ++ ";base64," ++ base64Encode r.body))
    ∧ ((r.contentTypeHeader = none ∨ r.contentTypeHeader = some "") →
      fetchImageAsBase64 (some r) = some ("data:" ++ "image/jpeg" ++ ";base64," ++ base64Encode r.body))
    ∧ base64Decode (base64Encode r.body) = some r.body
    ∧ fetchImageAsBase64 none = none := by
  refine ⟨?_, ?_, base64_roundTrip r.body hbytes, rfl⟩
  · intro c hc hcne
    simp [fetchImageAsBase64, hc, hcne]
  · rintro (hc | hc) <;> simp [fetchImageAsBase64, hc]

/-- Counterexample for C8 as stated: a response declaring the (present but
empty) content type produces the `image/jpeg` default, not the declared
value. -/
theorem claim_C8_counterexample :
    fetchImageAsBase64 (some { body := [1, 2, 3], contentTypeHeader := some "" })
      ≠ some ("data:" ++ "" ++ ";base64," ++ base64Encode [1, 2, 3]) := by decide

/-- Witness for C8: one byte with content type `image/png` round-trips. -/
theorem claim_C8_witness :
    fetchImageAsBase64 (some { body := [77], contentTypeHeader := some "image/png" })
      = some ("data:" ++ "image/png" ++ ";base64," ++ base64Encode [77])
    ∧ base64Decode (base64Encode [77]) = some [77] :=
  ⟨(claim_C8 { body := [77], contentTypeHeader := some "image/png" } (by decide)).1
      "image/png" rfl (by decide),
   (claim_C8 { body := [77], contentTypeHeader := some "image/png" } (by decide)).2.2.1⟩

/-- Claim C9 (amended): every pain value that the create/update gate forwards
to the store lies in the interval from 1 to 10; the range is all the gate
checks — integrality is not enforced, as `claim_C9_counterexample` shows. -/
theorem claim_C9 (pain_before pain_after : JsonValue) (spb spa : Option ℚ)
    (hstored : MedicalHistoryController.createMedicalHistoryPainGate pain_before pain_after
      = MedicalHistoryController.CreatePainOutcome.stored spb spa) :
    (∀ q, spb = some q → 1 ≤ q ∧ q ≤ 10) ∧ (∀ q, spa = some q → 1 ≤ q ∧ q ≤ 10) := by
  have hb : MedicalHistoryController.painScaleCheck pain_before = true := by
    cases hx : MedicalHistoryController.painScaleCheck pain_before with
    | false => simp [MedicalHistoryController.createMedicalHistoryPainGate, hx] at hstored
    | true => rfl
  have ha : MedicalHistoryController.painScaleCheck pain_after = true := by
    cases hx : MedicalHistoryController.painScaleCheck pain_after with
    | false => simp [MedicalHistoryController.createMedicalHistoryPainGate, hb, hx] at hstored
    | true => rfl
  have hres := hstored
  simp [MedicalHistoryController.createMedicalHistoryPainGate, hb, ha] at hres
  obtain ⟨hspb, hspa⟩ := hres
  constructor
  · intro q hq
    rw [← hspb] at hq
    cases pain_before with
    | undef => simp [MedicalHistoryController.painToStored] at hq
    | null => simp [MedicalHistoryController.painToStored] at hq
    | num q0 =>
      simp [MedicalHistoryController.painToStored] at hq
      subst hq
      simp [MedicalHistoryController.painScaleCheck] at hb
      exact ⟨by linarith [hb.1], by linarith [hb.2]⟩
  · intro q hq
    rw [← hspa] at hq
    cases pain_after with
    | undef => simp [MedicalHistoryController.painToStored] at hq
    | null => simp [MedicalHistoryController.painToStored] at hq
    | num q0 =>
      simp [MedicalHistoryController.painToStored] at hq
      subst hq
      simp [MedicalHistoryController.painScaleCheck] at ha
      exact ⟨by linarith [ha.1], by linarith [ha.2]⟩

/-- Counterexample for C9 as stated: the non-integer 11/2 passes the pain
check, so acceptance does not imply integrality. -/
theorem claim_C9_counterexample :
    MedicalHistoryController.painScaleCheck (JsonValue.num (11 / 2)) = true
    ∧ ∀ n : ℤ, (11 / 2 : ℚ) ≠ (n : ℚ) := by
  constructor
  · show (if (11 / 2 : ℚ) < 1 ∨ (11 / 2 : ℚ) > 10 then false else true) = true
    norm_num
  · intro n hn
    have h2 : (n : ℚ) * 2 = 11 := by
      rw [← hn]
      norm_num
    have h3 : n * 2 = 11 := by exact_mod_cast h2
    omega

/-- Witness for C9: a create request with `pain_before = 5` and no
`pain_after` is stored, and the stored value lies in the range. -/
theorem claim_C9_witness :
    MedicalHistoryController.createMedicalHistoryPainGate (JsonValue.num 5) JsonValue.undef
      = MedicalHistoryController.CreatePainOutcome.stored (some 5) none
    ∧ (1 ≤ (5 : ℚ) ∧ (5 : ℚ) ≤ 10) := by
  have hstored : MedicalHistoryController.createMedicalHistoryPainGate
      (JsonValue.num 5) JsonValue.undef
      = MedicalHistoryController.CreatePainOutcome.stored (some 5) none := by
    norm_num [MedicalHistoryController.createMedicalHistoryPainGate,
      MedicalHistoryController.painScaleCheck, MedicalHistoryController.painToStored]
  exact ⟨hstored, (claim_C9 (JsonValue.num 5) JsonValue.undef (some 5) none hstored).1 5 rfl⟩

/-- Claim C10: every formatted record's `pain_reduction` is the difference
`pain_before - pain_after` when both values are present and non-zero, and
null when either is missing/null or zero; and every progress-report session
carries the `pain_reduction` of its row's formatted record. -/
theorem claim_C10 :
    (∀ h : HistoryRow,
      MedicalHistoryDAO.formatMedicalHistoryForTable (some h)
        = some (MedicalHistoryDAO.formatRow h)
      ∧ (∀ b a : Int, h.pain_before = some b → h.pain_after = some a → b ≠ 0 → a ≠ 0 →
          (MedicalHistoryDAO.formatRow h).pain_reduction = some (b - a))
      ∧ ((h.pain_before = none ∨ h.pain_after = none
          ∨ h.pain_before = some 0 ∨ h.pain_after = some 0) →
          (MedicalHistoryDAO.formatRow h).pain_reduction = none))
    ∧ ∀ (store : List HistoryRow) (fetch : String → Option String) (pid : Int),
        (MedicalHistoryDAO.getPatientProgressReport store fetch pid).sessions.map
          (fun s => s.base.pain_reduction)
        = (MedicalHistoryDAO.sortedHistories store pid).map
            (fun r => (MedicalHistoryDAO.formatRow r).pain_reduction) := by
  constructor
  · intro h
    refine ⟨rfl, ?_, ?_⟩
    · intro b a hb ha hb0 ha0
      simp [MedicalHistoryDAO.formatRow, hb, ha, hb0, ha0]
    · intro hcase
      rcases hcase with hc | hc | hc | hc
      · simp [MedicalHistoryDAO.formatRow, hc]
      · cases hpb : h.pain_before <;> simp [MedicalHistoryDAO.formatRow, hpb, hc]
      · cases hpa : h.pain_after <;> simp [MedicalHistoryDAO.formatRow, hc, hpa]
      · cases hpb : h.pain_before <;> simp [MedicalHistoryDAO.formatRow, hpb, hc]
  · intro store fetch pid
    rw [MedicalHistoryDAO.sessions_eq]
    exact MedicalHistoryDAO.mapWithIndex_map_eq
      (fun i h => MedicalHistoryDAO.sessionFromFormatted fetch i h (MedicalHistoryDAO.formatRow h))
      (fun s => s.base.pain_reduction)
      (fun r => (MedicalHistoryDAO.formatRow r).pain_reduction) (fun i a => rfl) 0 _

/-- Witness for C10: a row with pains 5 and 2 formats to reduction 3, and a
row missing `pain_after` formats to a null reduction. -/
theorem claim_C10_witness :
    (MedicalHistoryDAO.formatRow (mkRow 1 1 1 (some 5) (some 2))).pain_reduction = some 3
    ∧ (MedicalHistoryDAO.formatRow (mkRow 2 1 2 (some 5) none)).pain_reduction = none :=
  ⟨(claim_C10.1 (mkRow 1 1 1 (some 5) (some 2))).2.1 5 2 rfl rfl (by decide) (by decide),
   (claim_C10.1 (mkRow 2 1 2 (some 5) none)).2.2 (Or.inr (Or.inl rfl))⟩
